import Mathlib

/-!
Verification of the Agentic-Customer-Multi-Agents backend.

Shallow embedding of:
  * `backend/app/tools/billing_tools.py` (`search_billing_info`, `calculate_price`);
  * `backend/app/utils/session_manager.py` (`SessionManager`);
  * the `routed_to` label extraction of the `/chat` endpoint in `backend/app/main.py`.

Python side effects are made explicit: the module-level dictionary
`SESSION_BILLING_POLICIES` becomes a cache value threaded through
`search_billing_info`; the session store becomes a value threaded through the
`SessionManager` operations; `datetime.now()` becomes an explicit `now : Nat`
argument; raised exceptions become `Except` values.  The embedding also
records observables the spec talks about: how many static-partition
retrievals a call performs and which similarity searches it issues for the
dynamic part.
-/

namespace CustomerAgents

/-! ## Billing tools (`backend/app/tools/billing_tools.py`) -/

/-- The session cache `SESSION_BILLING_POLICIES`, as an association list from
session id to the cached static-policy string. -/
abbrev Cache := List (String × String)

/-- Association-list lookup used for the session cache (Python `dict` read). -/
def cacheGet : Cache → String → Option String
  | [], _ => none
  | p :: rest, sid => if p.1 = sid then some p.2 else cacheGet rest sid

/-- A vector store: `similarity_search(query, k, filter)` either returns a
list of document contents or raises (modelled as `Except.error` carrying the
exception text `str(e)`).  The `Option String` argument is the metadata
filter: `some "static"`, `some "dynamic"`, or `none` for no filter. -/
structure VectorStore where
  search : String → Nat → Option String → Except String (List String)

/-- The fixed canonical query used to fetch static billing policies
(line 42 of `billing_tools.py`). -/
def canonical_static_query : String := "billing policies refund terms payment"

/-- `"\n\n".join(doc.page_content for doc in docs)`. -/
def joinDocs (docs : List String) : String := String.intercalate "\n\n" docs

/-- Outcome of the static-policy caching block (lines 38-51): the static
policy string used, the updated cache, and how many static-partition
retrievals were performed (0 on a cache hit, 1 otherwise). -/
structure StaticFetch where
  policies : String
  cache : Cache
  fetches : Nat
deriving DecidableEq

/-- Lines 38-51 of `billing_tools.py`: if `session_id` is not cached, run the
canonical static query with `k=3` and `filter=\x7b"type": "static"\x7d`; cache the
joined result, or the empty string if the retrieval raised. -/
def fetchStaticPolicies (vs : VectorStore) (cache : Cache) (session_id : String) :
    StaticFetch :=
  match cacheGet cache session_id with
  | some s => ⟨s, cache, 0⟩
  | none =>
    match vs.search canonical_static_query 3 (some "static") with
    | Except.ok docs => ⟨joinDocs docs, (session_id, joinDocs docs) :: cache, 1⟩
    | Except.error _ => ⟨"", (session_id, "") :: cache, 1⟩

/-- Outcome of the dynamic-data block (lines 53-65): the joined dynamic
context (or the propagated exception text), plus the list of
`(query, filter)` similarity searches actually issued, in order. -/
structure DynamicFetch where
  content : Except String String
  searches : List (String × Option String)

/-- Lines 53-65 of `billing_tools.py`: search the dynamic partition with the
caller's query; if that raises, fall back to the same query without a filter.
The fallback is not guarded by its own handler, so its exception propagates
(`Except.error`). -/
def fetchDynamicData (vs : VectorStore) (query : String) : DynamicFetch :=
  match vs.search query 3 (some "dynamic") with
  | Except.ok docs => ⟨Except.ok (joinDocs docs), [(query, some "dynamic")]⟩
  | Except.error _ =>
    match vs.search query 3 none with
    | Except.ok docs =>
      ⟨Except.ok (joinDocs docs), [(query, some "dynamic"), (query, none)]⟩
    | Except.error e =>
      ⟨Except.error e, [(query, some "dynamic"), (query, none)]⟩

/-- Lines 67-75 of `billing_tools.py`: compose the cached static block and
the dynamic block, skipping empty blocks; return the sentinel when both are
empty. -/
def composeBillingResult (staticCtx dynamicCtx : String) : String :=
  let result :=
    (if staticCtx = "" then ""
     else "BILLING POLICIES (cached):\n" ++ staticCtx ++ "\n\n")
    ++ (if dynamicCtx = "" then "" else "CURRENT BILLING DATA:\n" ++ dynamicCtx)
  if result = "" then "No relevant billing information found." else result

/-- Observable outcome of one `search_billing_info` call: the returned
string, the cache after the call, the number of static-partition retrievals
performed, and the dynamic similarity searches issued. -/
structure BillingOutcome where
  result : String
  cache : Cache
  staticFetches : Nat
  dynamicSearches : List (String × Option String)
deriving DecidableEq

/-- `search_billing_info(query, session_id)` of `billing_tools.py`, with the
vector store (`None` when unavailable) and the `SESSION_BILLING_POLICIES`
cache passed explicitly.  A fallback retrieval that also raises reaches the
outer handler (line 77), which returns the error text; the cache update made
by the static block persists in every branch. -/
def search_billing_info (vs : Option VectorStore) (cache : Cache)
    (query : String) (session_id : String) : BillingOutcome :=
  match vs with
  | none =>
    ⟨"Billing information is currently unavailable. Please try again later or contact support.",
     cache, 0, []⟩
  | some store =>
    let sf := fetchStaticPolicies store cache session_id
    let df := fetchDynamicData store query
    match df.content with
    | Except.ok d =>
      ⟨composeBillingResult sf.policies d, sf.cache, sf.fetches, df.searches⟩
    | Except.error e =>
      ⟨"Error retrieving billing information: " ++ e, sf.cache, sf.fetches, df.searches⟩

/-- The static-policy string a fresh fetch against `vs` memoizes: the joined
documents on success, `""` on failure. -/
def staticResult (vs : VectorStore) : String :=
  match vs.search canonical_static_query 3 (some "static") with
  | Except.ok docs => joinDocs docs
  | Except.error _ => ""

/-! ## `calculate_price` (lines 82-111 of `billing_tools.py`)

Prices are exact multiples of one cent, so the price table is embedded in
integer cents and `f"\x7btotal:.2f\x7d"` becomes exact cent formatting. -/

/-- The mock pricing table, in cents, in Python `dict` insertion order. -/
def pricing : List (String × Nat) :=
  [("basic_plan", 999), ("pro_plan", 2999), ("enterprise_plan", 9999),
   ("addon_storage", 500), ("addon_users", 1000)]

/-- Association-list lookup for the pricing table. -/
def priceGet : List (String × Nat) → String → Option Nat
  | [], _ => none
  | p :: rest, k => if p.1 = k then some p.2 else priceGet rest k

/-- Python `s.lower()`, character by character (the product names in play
are ASCII). -/
def pyLower (s : String) : String := String.mk (s.toList.map Char.toLower)

/-- Python `s.replace(" ", "_")`: the pattern is a single character, so the
replacement is a character map. -/
def pyReplaceSpaceUnderscore (s : String) : String :=
  String.mk (s.toList.map fun c => if c = ' ' then '_' else c)

/-- `product.lower().replace(" ", "_")` (line 103). -/
def normalize_product (product : String) : String :=
  pyReplaceSpaceUnderscore (pyLower product)

/-- Format a nonnegative amount of cents with two decimals, as
`f"\x7bx:.2f\x7d"` does for these exact values. -/
def formatCentsNat (c : Nat) : String :=
  toString (c / 100) ++ "." ++ (if c % 100 < 10 then "0" else "") ++ toString (c % 100)

/-- Format a (possibly negative) amount of cents with two decimals. -/
def formatCents (c : Int) : String :=
  (if c < 0 then "-" else "") ++ formatCentsNat c.natAbs

/-- `calculate_price(product, quantity)` of `billing_tools.py`. -/
def calculate_price (product : String) (quantity : Int) : String :=
  let product_lower := normalize_product product
  match priceGet pricing product_lower with
  | some unit_cents =>
    let total : Int := (unit_cents : Int) * quantity
    "Price for " ++ toString quantity ++ "x " ++ product ++ ": $" ++ formatCents total
      ++ " ($" ++ formatCentsNat unit_cents ++ " per unit)"
  | none =>
    "Product \x27" ++ product ++ "\x27 not found. Available products: "
      ++ String.intercalate ", " (pricing.map Prod.fst)

/-! ## Session manager (`backend/app/utils/session_manager.py`)

`datetime.now()` becomes an explicit `now : Nat`; the timeout
`self._session_timeout` becomes `tmo : Nat` in the same time unit.  The
Python expiry test `datetime.now() - session["last_activity"] > timeout`
becomes `now - last_activity > tmo` (truncated `Nat` subtraction agrees with
the Python comparison whenever `tmo ≥ 0`, which it is).  The per-instance
dictionary `self._sessions` is threaded as a value. -/

/-- One session dictionary, as created by `create_session` (lines 28-36). -/
structure Session where
  session_id : String
  customer_id : Option String
  created_at : Nat
  last_activity : Nat
  message_count : Nat
  cached_billing_policies : Option String
  routing_history : List String
deriving DecidableEq

/-- The `self._sessions` dictionary. -/
abbrev Store := List (String × Session)

/-- Dictionary read `self._sessions.get(session_id)`. -/
def storeGet : Store → String → Option Session
  | [], _ => none
  | p :: rest, sid => if p.1 = sid then some p.2 else storeGet rest sid

/-- Dictionary write to an existing key: replace every entry keyed `sid`. -/
def storeSet : Store → String → Session → Store
  | [], _, _ => []
  | p :: rest, sid, s => (if p.1 = sid then (sid, s) else p) :: storeSet rest sid s

/-- Dictionary deletion `del self._sessions[sid]`. -/
def storeErase : Store → String → Store
  | [], _ => []
  | p :: rest, sid =>
    if p.1 = sid then storeErase rest sid else p :: storeErase rest sid

/-- Overwrite only `last_activity` (`session["last_activity"] = datetime.now()`). -/
def setLastActivity (s : Session) (t : Nat) : Session :=
  ⟨s.session_id, s.customer_id, s.created_at, t, s.message_count,
   s.cached_billing_policies, s.routing_history⟩

/-- `session["message_count"] += 1`. -/
def incMessageCount (s : Session) : Session :=
  ⟨s.session_id, s.customer_id, s.created_at, s.last_activity,
   s.message_count + 1, s.cached_billing_policies, s.routing_history⟩

/-- The `**kwargs` of `update_session`: each updatable field is either left
alone (`none`) or overwritten.  Callers in `main.py` pass `routing_history`.
`last_activity` is not a patch field because line 78 overwrites it after the
merge in any case. -/
structure SessionPatch where
  customer_id : Option (Option String)
  message_count : Option Nat
  cached_billing_policies : Option (Option String)
  routing_history : Option (List String)
deriving DecidableEq

/-- `session.update(kwargs)` (line 77). -/
def applyPatch (s : Session) (p : SessionPatch) : Session :=
  ⟨s.session_id, p.customer_id.getD s.customer_id, s.created_at,
   s.last_activity, p.message_count.getD s.message_count,
   p.cached_billing_policies.getD s.cached_billing_policies,
   p.routing_history.getD s.routing_history⟩

/-- `create_session` (lines 23-39), with the fresh `uuid4` id passed in. -/
def create_session (st : Store) (session_id : String) (customer_id : Option String)
    (now : Nat) : Store :=
  (session_id, ⟨session_id, customer_id, now, now, 0, none, []⟩) :: st

/-- `get_session` (lines 41-57): `None` if absent; if expired, delete and
return `None`; otherwise refresh `last_activity` and return the session.
Returns the session (if any) and the store after the call. -/
def get_session (tmo now : Nat) (st : Store) (session_id : String) :
    Option Session × Store :=
  match storeGet st session_id with
  | none => (none, st)
  | some s =>
    if now - s.last_activity > tmo then (none, storeErase st session_id)
    else (some (setLastActivity s now), storeSet st session_id (setLastActivity s now))

/-- `create_session` followed by `get_session` on the new id — the tail of
`get_or_create_session` (lines 68-70). -/
def create_and_get (tmo now : Nat) (st : Store) (customer_id : Option String)
    (fresh_id : String) : Option Session × Store :=
  get_session tmo now (create_session st fresh_id customer_id now) fresh_id

/-- `get_or_create_session` (lines 59-70).  `if session_id:` is Python
truthiness, so `None` and the empty string both take the create path. -/
def get_or_create_session (tmo now : Nat) (st : Store) (session_id : Option String)
    (customer_id : Option String) (fresh_id : String) : Option Session × Store :=
  match session_id with
  | some sid =>
    if sid = "" then create_and_get tmo now st customer_id fresh_id
    else
      match get_session tmo now st sid with
      | (some s, st2) => (some s, st2)
      | (none, st2) => create_and_get tmo now st2 customer_id fresh_id
  | none => create_and_get tmo now st customer_id fresh_id

/-- `update_session` (lines 72-78): merge the fields if the id is present,
then refresh `last_activity`; silently do nothing otherwise.  Note there is
no expiry check. -/
def update_session (now : Nat) (st : Store) (session_id : String)
    (p : SessionPatch) : Store :=
  match storeGet st session_id with
  | none => st
  | some s => storeSet st session_id (setLastActivity (applyPatch s p) now)

/-- `increment_message_count` (lines 80-85): bump the counter if the id is
present.  Note it does not touch `last_activity`. -/
def increment_message_count (st : Store) (session_id : String) : Store :=
  match storeGet st session_id with
  | none => st
  | some s => storeSet st session_id (incMessageCount s)

/-- `cleanup_expired_sessions` (lines 87-101): drop every expired entry. -/
def cleanup_expired_sessions (tmo now : Nat) (st : Store) : Store :=
  st.filter fun p => decide (now - p.2.last_activity ≤ tmo)

/-- `get_session_count` (lines 103-106). -/
def get_session_count (st : Store) : Nat := st.length

/-! ### Access sequences

For the monotonicity claim we run an arbitrary sequence of
`get` / `update` / `increment` calls, each tagged with the time at which it
runs. -/

/-- One session-manager access. -/
inductive SMOp where
  | get (sid : String)
  | update (sid : String) (p : SessionPatch)
  | increment (sid : String)

/-- The store after one access executed at time `now`. -/
def smStep (tmo : Nat) (st : Store) (op : SMOp) (now : Nat) : Store :=
  match op with
  | SMOp.get sid => (get_session tmo now st sid).2
  | SMOp.update sid p => update_session now st sid p
  | SMOp.increment sid => increment_message_count st sid

/-- The store after a timed sequence of accesses. -/
def smRun (tmo : Nat) (st : Store) : List (SMOp × Nat) → Store
  | [] => st
  | (op, t) :: rest => smRun tmo (smStep tmo st op t) rest

/-- The wall clock never goes backwards along the sequence, starting from
`c`. -/
def timesMono : Nat → List (SMOp × Nat) → Bool
  | _, [] => true
  | c, (_, t) :: rest => decide (c ≤ t) && timesMono t rest

/-- Every stored `last_activity` is at most the current time `c`. -/
def laBound (c : Nat) (st : Store) : Bool :=
  st.all fun p => decide (p.2.last_activity ≤ c)

/-- The `last_activity` field of the session stored under `sid`, if any. -/
def laOf (st : Store) (sid : String) : Option Nat :=
  (storeGet st sid).map Session.last_activity

/-! ## `routed_to` extraction (`backend/app/main.py`, lines 147-158)

A transcript message is modelled by the list of its tool-call names: the
empty list stands for a message with no `tool_calls` attribute or an empty
one, and the head of a non-empty list is `msg.tool_calls[0].get('name', '')`. -/

/-- Does `pat` occur at the start of `s`? -/
def charsStartWith : List Char → List Char → Bool
  | [], _ => true
  | _ :: _, [] => false
  | a :: as, b :: bs => a == b && charsStartWith as bs

/-- Python `pat in s` on strings: substring containment. -/
def charsContain (pat : List Char) : List Char → Bool
  | [] => charsStartWith pat []
  | b :: bs => charsStartWith pat (b :: bs) || charsContain pat bs

/-- Python `pat in s` lifted to `String`. -/
def containsSub (s pat : String) : Bool := charsContain pat.toList s.toList

/-- Lines 147-158 of `main.py`: scan the transcript for the first message
with tool calls; classify its first tool-call name by case-insensitive
substring tests, in the order billing / technical / policy; `break` after
that message whether or not a test matched.  Default `"Supervisor"`. -/
def routed_to : List (List String) → String
  | [] => "Supervisor"
  | msg :: rest =>
    match msg with
    | [] => routed_to rest
    | name :: _ =>
      if containsSub (pyLower name) "billing" then "Billing Support"
      else if containsSub (pyLower name) "technical" then "Technical Support"
      else if containsSub (pyLower name) "policy" then "Policy & Compliance"
      else "Supervisor"

/-! ## Concrete stores used to exercise the billing tool -/

/-- A vector store whose every search raises. -/
def failVS : VectorStore := ⟨fun _ _ _ => Except.error "boom"⟩

/-- A vector store whose every search succeeds with one document echoing the
query. -/
def okVS : VectorStore := ⟨fun q _ _ => Except.ok ["doc for " ++ q]⟩

/-- A vector store where only the dynamic partition is broken. -/
def dynFailVS : VectorStore :=
  ⟨fun _ _ f => if f = some "dynamic" then Except.error "dyn down"
                else Except.ok ["fallback doc"]⟩

/-! ## Concrete sessions used to exercise the session manager -/

/-- A session whose last activity was at time 0. -/
def demoSession : Session := ⟨"s", none, 0, 0, 0, none, []⟩

/-- A store holding only `demoSession`. -/
def demoStore : Store := [("s", demoSession)]

/-- A patch appending to the routing history, as the `/chat` endpoint does. -/
def demoPatch : SessionPatch := ⟨none, none, none, some ["Billing Support"]⟩

/-- A long-expired session. -/
def expiredSession : Session := ⟨"e", none, 0, 0, 0, none, []⟩

/-- A session still inside the timeout window at time 100 with timeout 5. -/
def liveSession : Session := ⟨"l", some "c1", 0, 95, 2, none, ["Supervisor"]⟩

/-- A store holding one expired and one live session. -/
def mixedStore : Store := [("e", expiredSession), ("l", liveSession)]

/-- A timed access sequence: a read at 3, an increment at 5, an update at 7. -/
def demoTrace : List (SMOp × Nat) :=
  [(SMOp.get "s", 3), (SMOp.increment "s", 5), (SMOp.update "s" demoPatch, 7)]

/-! ## Helper lemmas about the billing embedding -/

lemma cacheGet_cons_self (cache : Cache) (sid v : String) :
    cacheGet ((sid, v) :: cache) sid = some v := by
  simp [cacheGet]

lemma eq_empty_of_length_zero (s : String) (h : s.length = 0) : s = "" := by
  obtain ⟨data⟩ := s
  cases data with
  | nil => rfl
  | cons c cs => simp [String.length] at h

lemma append_ne_empty_of_left (a b : String) (ha : a ≠ "") : a ++ b ≠ "" := by
  intro habs
  have h2 := congrArg String.length habs
  rw [String.length_append] at h2
  simp only [String.length_empty] at h2
  exact ha (eq_empty_of_length_zero a (by omega))

lemma append_ne_empty_of_right (a b : String) (hb : b ≠ "") : a ++ b ≠ "" := by
  intro habs
  have h2 := congrArg String.length habs
  rw [String.length_append] at h2
  simp only [String.length_empty] at h2
  exact hb (eq_empty_of_length_zero b (by omega))

lemma fetchStatic_miss (vs : VectorStore) (cache : Cache) (sid : String)
    (h : cacheGet cache sid = none) :
    fetchStaticPolicies vs cache sid =
      ⟨staticResult vs, (sid, staticResult vs) :: cache, 1⟩ := by
  unfold fetchStaticPolicies staticResult
  rw [h]
  cases hs : vs.search canonical_static_query 3 (some "static") <;> rfl

lemma fetchStatic_hit (vs : VectorStore) (cache : Cache) (sid s : String)
    (h : cacheGet cache sid = some s) :
    fetchStaticPolicies vs cache sid = ⟨s, cache, 0⟩ := by
  unfold fetchStaticPolicies
  rw [h]

lemma sbi_parts (vs : VectorStore) (cache : Cache) (q sid : String) :
    (search_billing_info (some vs) cache q sid).cache =
        (fetchStaticPolicies vs cache sid).cache ∧
    (search_billing_info (some vs) cache q sid).staticFetches =
        (fetchStaticPolicies vs cache sid).fetches ∧
    (search_billing_info (some vs) cache q sid).dynamicSearches =
        (fetchDynamicData vs q).searches := by
  unfold search_billing_info
  cases h : (fetchDynamicData vs q).content <;> simp [h]

/-- C1: for every session id, the static portion of the hybrid billing lookup
is computed at most once per session: the first `search_billing_info` call for
an uncached session id performs exactly one static-partition retrieval and
memoizes the joined result (the empty string when the retrieval failed); any
later call for the same session id — with any query and even against a store
that now behaves differently — performs zero static retrievals, leaves the
cache unchanged, and reuses the byte-identical memoized static string. -/
theorem static_policies_memoized (vs vs2 : VectorStore) (cache : Cache)
    (q q2 sid : String) (h : cacheGet cache sid = none) :
    (search_billing_info (some vs) cache q sid).staticFetches = 1 ∧
    cacheGet (search_billing_info (some vs) cache q sid).cache sid =
      some (staticResult vs) ∧
    (∀ e, vs.search canonical_static_query 3 (some "static") = Except.error e →
      cacheGet (search_billing_info (some vs) cache q sid).cache sid = some "") ∧
    (search_billing_info (some vs2)
        (search_billing_info (some vs) cache q sid).cache q2 sid).staticFetches = 0 ∧
    (search_billing_info (some vs2)
        (search_billing_info (some vs) cache q sid).cache q2 sid).cache =
      (search_billing_info (some vs) cache q sid).cache ∧
    (fetchStaticPolicies vs2 (search_billing_info (some vs) cache q sid).cache
        sid).policies = staticResult vs := by
  obtain ⟨hc1, hf1, -⟩ := sbi_parts vs cache q sid
  obtain ⟨hc2, hf2, -⟩ := sbi_parts vs2 (search_billing_info (some vs) cache q sid).cache q2 sid
  have hm := fetchStatic_miss vs cache sid h
  have hcache : (search_billing_info (some vs) cache q sid).cache =
      (sid, staticResult vs) :: cache := by rw [hc1, hm]
  have hget : cacheGet (search_billing_info (some vs) cache q sid).cache sid =
      some (staticResult vs) := by rw [hcache]; exact cacheGet_cons_self cache sid _
  have hhit := fetchStatic_hit vs2 (search_billing_info (some vs) cache q sid).cache
      sid (staticResult vs) hget
  refine ⟨?_, hget, ?_, ?_, ?_, ?_⟩
  · rw [hf1, hm]
  · intro e he
    have : staticResult vs = "" := by unfold staticResult; rw [he]
    rw [hget, this]
  · rw [hf2, hhit]
  · rw [hc2, hhit]
  · rw [hhit]

/-- Witness for C1 at a concrete input: the first call runs against a store
whose static retrieval fails, so the empty string is memoized; the second
call against a fully working store still returns the memoized empty static
string and fetches nothing. -/
theorem static_policies_memoized_witness :
    cacheGet ([] : Cache) "s1" = none ∧
    cacheGet (search_billing_info (some failVS) [] "q" "s1").cache "s1" = some "" ∧
    (search_billing_info (some okVS)
        (search_billing_info (some failVS) [] "q" "s1").cache "q2" "s1").staticFetches = 0 ∧
    (fetchStaticPolicies okVS (search_billing_info (some failVS) [] "q" "s1").cache
        "s1").policies = "" := by
  have h := static_policies_memoized failVS okVS [] "q" "q2" "s1" rfl
  have he : staticResult failVS = "" := rfl
  exact ⟨rfl, h.2.2.1 "boom" rfl, h.2.2.2.1, he ▸ h.2.2.2.2.2⟩

/-- C2 as stated is false: when both the dynamic-partition retrieval and the
unfiltered fallback raise, `search_billing_info` does not surface the failure
as empty dynamic content in the composed result — the fallback's exception
reaches the outer handler, which returns an error-text result. -/
theorem dynamic_fallback_claim_counterexample :
    (search_billing_info (some failVS) [] "q" "s").result =
      "Error retrieving billing information: boom" ∧
    (search_billing_info (some failVS) [] "q" "s").result ≠
      composeBillingResult (fetchStaticPolicies failVS [] "s").policies "" := by
  exact ⟨rfl, by decide⟩

/-- C2 amended: when the dynamic-partition retrieval fails,
`search_billing_info` falls back exactly once to an unfiltered retrieval over
the same query (the searches issued are precisely the filtered one and then
the unfiltered one); if the fallback succeeds its result is used as the
dynamic context, but if the fallback also fails the call returns the
error-text result `"Error retrieving billing information: <e>"` — no
exception escapes, and the static cache update still persists. -/
theorem dynamic_fallback_surfaces_error (vs : VectorStore) (cache : Cache)
    (q sid e : String) (h : vs.search q 3 (some "dynamic") = Except.error e) :
    (search_billing_info (some vs) cache q sid).dynamicSearches =
      [(q, some "dynamic"), (q, none)] ∧
    (search_billing_info (some vs) cache q sid).result =
      (match vs.search q 3 none with
       | Except.ok docs =>
         composeBillingResult (fetchStaticPolicies vs cache sid).policies (joinDocs docs)
       | Except.error e2 => "Error retrieving billing information: " ++ e2) ∧
    (search_billing_info (some vs) cache q sid).cache =
      (fetchStaticPolicies vs cache sid).cache := by
  simp only [search_billing_info, fetchDynamicData, h]
  cases h2 : vs.search q 3 none <;> simp [h2]

/-- Witness for C2 (amended) at a concrete input: a store whose every search
raises, so the fallback also fails and the error text is returned. -/
theorem dynamic_fallback_surfaces_error_witness :
    (search_billing_info (some failVS) [] "q" "s").dynamicSearches =
      [("q", some "dynamic"), ("q", none)] ∧
    (search_billing_info (some failVS) [] "q" "s").result =
      "Error retrieving billing information: boom" := by
  have h := dynamic_fallback_surfaces_error failVS [] "q" "s" "boom" rfl
  exact ⟨h.1, h.2.1⟩

/-- C6: with the store available and the dynamic retrieval (or its fallback)
succeeding, the result is the static block under its own label followed by
the dynamic block under its own label; an empty block is omitted entirely;
when both are empty the sentinel message is returned; the result is never the
empty string. -/
theorem billing_result_composition (vs : VectorStore) (cache : Cache)
    (q sid d : String) (h : (fetchDynamicData vs q).content = Except.ok d) :
    (search_billing_info (some vs) cache q sid).result =
      composeBillingResult (fetchStaticPolicies vs cache sid).policies d ∧
    (∀ s dc : String, s ≠ "" → dc ≠ "" → composeBillingResult s dc =
      ("BILLING POLICIES (cached):\n" ++ s ++ "\n\n")
        ++ ("CURRENT BILLING DATA:\n" ++ dc)) ∧
    (∀ dc : String, dc ≠ "" →
      composeBillingResult "" dc = "CURRENT BILLING DATA:\n" ++ dc) ∧
    (∀ s : String, s ≠ "" →
      composeBillingResult s "" = "BILLING POLICIES (cached):\n" ++ s ++ "\n\n") ∧
    composeBillingResult "" "" = "No relevant billing information found." ∧
    (∀ s dc : String, composeBillingResult s dc ≠ "") := by
  refine ⟨?_, ?_, ?_, ?_, by decide, ?_⟩
  · simp only [search_billing_info]
    rw [h]
  · intro s dc hs hd
    have hne : ("BILLING POLICIES (cached):\n" ++ s ++ "\n\n")
        ++ ("CURRENT BILLING DATA:\n" ++ dc) ≠ "" :=
      append_ne_empty_of_left _ _
        (append_ne_empty_of_left _ _ (append_ne_empty_of_left _ _ (by decide)))
    simp only [composeBillingResult]
    rw [if_neg hs, if_neg hd, if_neg hne]
  · intro dc hd
    have hne : "" ++ ("CURRENT BILLING DATA:\n" ++ dc) ≠ "" :=
      append_ne_empty_of_right _ _ (append_ne_empty_of_left _ _ (by decide))
    simp only [composeBillingResult, if_true]
    rw [if_neg hd, if_neg hne]
    simp
  · intro s hs
    have hne : "BILLING POLICIES (cached):\n" ++ s ++ "\n\n" ++ "" ≠ "" :=
      append_ne_empty_of_left _ _ (append_ne_empty_of_right _ _ (by decide))
    simp only [composeBillingResult, if_true]
    rw [if_neg hs, if_neg hne]
    simp
  · intro s dc
    simp only [composeBillingResult]
    by_cases hres : ((if s = "" then ""
        else "BILLING POLICIES (cached):\n" ++ s ++ "\n\n")
      ++ (if dc = "" then "" else "CURRENT BILLING DATA:\n" ++ dc)) = ""
    · rw [if_pos hres]; decide
    · rw [if_neg hres]; exact hres

/-- Witness for C6 at a concrete input: a fully working store. -/
theorem billing_result_composition_witness :
    (fetchDynamicData okVS "q").content = Except.ok "doc for q" ∧
    (search_billing_info (some okVS) [] "q" "s").result =
      composeBillingResult (fetchStaticPolicies okVS [] "s").policies "doc for q" := by
  exact ⟨rfl, (billing_result_composition okVS [] "q" "s" "doc for q" rfl).1⟩

/-- C7: `calculate_price` is a pure function over the fixed price table keyed
by the normalized product name (lowercase, spaces replaced by underscores):
for every product whose normalized name is in the table and every quantity,
it reports the total `unit price × quantity` formatted to two decimals; in
particular `calculate_price "Pro Plan" 3` normalizes to `pro_plan` and
reports a total of `89.97`. -/
theorem calculate_price_correct :
    (∀ (product : String) (quantity : Int) (unit_cents : Nat),
      priceGet pricing (normalize_product product) = some unit_cents →
      calculate_price product quantity =
        "Price for " ++ toString quantity ++ "x " ++ product ++ ": $"
          ++ formatCents ((unit_cents : Int) * quantity)
          ++ " ($" ++ formatCentsNat unit_cents ++ " per unit)") ∧
    normalize_product "Pro Plan" = "pro_plan" ∧
    formatCents ((2999 : Int) * 3) = "89.97" ∧
    calculate_price "Pro Plan" 3 = "Price for 3x Pro Plan: $89.97 ($29.99 per unit)" := by
  refine ⟨?_, by decide, by decide, by decide⟩
  intro product quantity unit_cents h
  simp only [calculate_price]
  rw [h]

/-- Witness for C7: the general formula applied at `("Pro Plan", 5)`. -/
theorem calculate_price_correct_witness :
    priceGet pricing (normalize_product "Pro Plan") = some 2999 ∧
    calculate_price "Pro Plan" 5 = "Price for 5x Pro Plan: $149.95 ($29.99 per unit)" := by
  refine ⟨by decide, ?_⟩
  have h := calculate_price_correct.1 "Pro Plan" 5 2999 (by decide)
  rw [h]
  decide

/-- C8: for every product whose normalized name is not a key of the price
table, and any quantity, `calculate_price` returns (rather than throwing)
a message carrying the full literal list of valid product keys. -/
theorem calculate_price_unknown_product (product : String) (quantity : Int)
    (h : priceGet pricing (normalize_product product) = none) :
    calculate_price product quantity =
      "Product \x27" ++ product ++ "\x27 not found. Available products: "
        ++ "basic_plan, pro_plan, enterprise_plan, addon_storage, addon_users" := by
  simp only [calculate_price]
  rw [h]
  congr 1

/-- Witness for C8 at `("mystery_widget", 1)`. -/
theorem calculate_price_unknown_product_witness :
    priceGet pricing (normalize_product "mystery_widget") = none ∧
    calculate_price "mystery_widget" 1 =
      "Product \x27mystery_widget\x27 not found. Available products: basic_plan, pro_plan, enterprise_plan, addon_storage, addon_users" := by
  refine ⟨by decide, ?_⟩
  rw [calculate_price_unknown_product "mystery_widget" 1 (by decide)]
  decide

lemma routed_to_mem (msgs : List (List String)) :
    routed_to msgs = "Billing Support" ∨ routed_to msgs = "Technical Support" ∨
    routed_to msgs = "Policy & Compliance" ∨ routed_to msgs = "Supervisor" := by
  induction msgs with
  | nil => simp [routed_to]
  | cons m rest ih =>
    cases m with
    | nil => simpa [routed_to] using ih
    | cons name tl =>
      simp only [routed_to]
      by_cases h1 : containsSub (pyLower name) "billing" = true
      · simp [h1]
      · by_cases h2 : containsSub (pyLower name) "technical" = true
        · simp [h1, h2]
        · by_cases h3 : containsSub (pyLower name) "policy" = true
          · simp [h1, h2, h3]
          · simp [h1, h2, h3]

/-- C9: the `routed_to` extraction of the `/chat` endpoint always yields
exactly one label drawn from the four agent identities (in particular it is
never empty); a transcript in which no message carries tool calls is labeled
`"Supervisor"`; a prefix of messages without tool calls is skipped; and the
first message that does carry tool calls alone determines the label — the
rest of the transcript is ignored. -/
theorem routed_to_label_spec :
    (∀ msgs : List (List String), routed_to msgs ≠ "") ∧
    (∀ msgs : List (List String),
      routed_to msgs = "Billing Support" ∨ routed_to msgs = "Technical Support" ∨
      routed_to msgs = "Policy & Compliance" ∨ routed_to msgs = "Supervisor") ∧
    (∀ msgs : List (List String), (∀ m ∈ msgs, m = []) →
      routed_to msgs = "Supervisor") ∧
    (∀ (pre : List (List String)) (m : List String) (rest : List (List String)),
      (∀ x ∈ pre, x = []) → routed_to (pre ++ m :: rest) = routed_to (m :: rest)) ∧
    (∀ (name : String) (tl : List String) (rest : List (List String)),
      routed_to ((name :: tl) :: rest) = routed_to [name :: tl]) := by
  have hskip : ∀ (pre : List (List String)) (m : List String)
      (rest : List (List String)), (∀ x ∈ pre, x = []) →
      routed_to (pre ++ m :: rest) = routed_to (m :: rest) := by
    intro pre
    induction pre with
    | nil => intro m rest _; rfl
    | cons p ps ih =>
      intro m rest h
      have hp : p = [] := h p (List.mem_cons_self p ps)
      subst hp
      simpa [routed_to] using ih m rest fun x hx => h x (List.mem_cons_of_mem _ hx)
  refine ⟨?_, routed_to_mem, ?_, hskip, ?_⟩
  · intro msgs
    rcases routed_to_mem msgs with h | h | h | h <;> rw [h] <;> decide
  · intro msgs h
    induction msgs with
    | nil => rfl
    | cons m rest ih =>
      have hm : m = [] := h m (List.mem_cons_self m rest)
      subst hm
      simpa [routed_to] using ih fun x hx => h x (List.mem_cons_of_mem _ hx)
  · intro name tl rest
    simp only [routed_to]

/-- Witness for C9: a transcript with two empty-tool-call messages, then a
billing transfer, then a policy transfer, is labeled by the first
tool-calling message only. -/
theorem routed_to_label_spec_witness :
    routed_to ([[], []] ++ ["transfer_to_billing_agent"] :: [["transfer_to_policy_agent"]]) =
      routed_to [["transfer_to_billing_agent"], ["transfer_to_policy_agent"]] ∧
    routed_to [["transfer_to_billing_agent"], ["transfer_to_policy_agent"]] =
      "Billing Support" := by
  refine ⟨routed_to_label_spec.2.2.2.1 [[], []] ["transfer_to_billing_agent"]
    [["transfer_to_policy_agent"]] (by simp), by decide⟩

/-! ## Helper lemmas about the session store -/

lemma storeGet_set_self (st : Store) (sid : String) (v s : Session)
    (h : storeGet st sid = some s) : storeGet (storeSet st sid v) sid = some v := by
  induction st with
  | nil => simp [storeGet] at h
  | cons p rest ih =>
    by_cases hp : p.1 = sid
    · simp [storeGet, storeSet, hp]
    · simp only [storeGet, if_neg hp] at h
      simp only [storeSet, if_neg hp, storeGet]
      exact ih h

lemma storeGet_set_ne (st : Store) (sid sid2 : String) (v : Session)
    (h : sid2 ≠ sid) : storeGet (storeSet st sid v) sid2 = storeGet st sid2 := by
  induction st with
  | nil => rfl
  | cons p rest ih =>
    by_cases hp : p.1 = sid
    · simp only [storeSet, if_pos hp, storeGet]
      rw [if_neg (fun hc : sid = sid2 => h hc.symm),
        if_neg (fun hc : p.1 = sid2 => h (hp ▸ hc).symm)]
      exact ih
    · simp only [storeSet, if_neg hp, storeGet]
      by_cases hq : p.1 = sid2
      · rw [if_pos hq, if_pos hq]
      · rw [if_neg hq, if_neg hq]
        exact ih

lemma storeGet_set_none (st : Store) (sid sid2 : String) (v : Session)
    (h : storeGet st sid2 = none) :
    storeGet (storeSet st sid v) sid2 = none := by
  by_cases he : sid2 = sid
  · subst he
    induction st with
    | nil => rfl
    | cons p rest ih =>
      by_cases hp : p.1 = sid2
      · simp [storeGet, hp] at h
      · simp only [storeGet, if_neg hp] at h
        simp only [storeSet, if_neg hp, storeGet]
        exact ih h
  · rw [storeGet_set_ne st sid sid2 v he]
    exact h

lemma storeGet_erase_self (st : Store) (sid : String) :
    storeGet (storeErase st sid) sid = none := by
  induction st with
  | nil => rfl
  | cons p rest ih =>
    by_cases hp : p.1 = sid
    · simpa [storeErase, hp] using ih
    · simp only [storeErase, if_neg hp, storeGet, hp, if_false]
      exact ih

lemma storeGet_erase_ne (st : Store) (sid sid2 : String) (h : sid2 ≠ sid) :
    storeGet (storeErase st sid) sid2 = storeGet st sid2 := by
  induction st with
  | nil => rfl
  | cons p rest ih =>
    by_cases hp : p.1 = sid
    · have hq : p.1 ≠ sid2 := fun hc => h (hc ▸ hp)
      simp only [storeErase, if_pos hp, storeGet]
      rw [if_neg hq]
      exact ih
    · simp only [storeErase, if_neg hp, storeGet]
      by_cases hq : p.1 = sid2
      · rw [if_pos hq, if_pos hq]
      · rw [if_neg hq, if_neg hq]
        exact ih

lemma storeGet_mem (st : Store) (sid : String) (s : Session)
    (h : storeGet st sid = some s) : (sid, s) ∈ st := by
  induction st with
  | nil => simp [storeGet] at h
  | cons p rest ih =>
    by_cases hp : p.1 = sid
    · simp only [storeGet, if_pos hp] at h
      obtain ⟨p1, p2⟩ := p
      obtain rfl : p1 = sid := hp
      obtain rfl : p2 = s := Option.some.inj h
      exact List.mem_cons_self _ _
    · simp only [storeGet, if_neg hp] at h
      exact List.mem_cons_of_mem _ (ih h)

lemma storeErase_length_le (st : Store) (sid : String) :
    (storeErase st sid).length ≤ st.length := by
  induction st with
  | nil => exact Nat.le_refl _
  | cons p rest ih =>
    by_cases hp : p.1 = sid
    · simp only [storeErase, if_pos hp, List.length_cons]
      exact Nat.le_succ_of_le ih
    · simp only [storeErase, if_neg hp, List.length_cons]
      exact Nat.succ_le_succ ih

lemma storeErase_length_lt (st : Store) (sid : String) (s : Session)
    (h : storeGet st sid = some s) :
    (storeErase st sid).length < st.length := by
  induction st with
  | nil => simp [storeGet] at h
  | cons p rest ih =>
    by_cases hp : p.1 = sid
    · simp only [storeErase, if_pos hp, List.length_cons]
      exact Nat.lt_succ_of_le (storeErase_length_le rest sid)
    · simp only [storeGet, if_neg hp] at h
      simp only [storeErase, if_neg hp, List.length_cons]
      exact Nat.succ_lt_succ (ih h)

/-- C4: a session whose `now - last_activity` exceeds the timeout is deleted
by `get_session` and reported absent, after which it is gone from the store
(and so no longer counted); `cleanup_expired_sessions` keeps exactly the
non-expired sessions; a session with `now - last_activity ≤ timeout` is
returned (with refreshed `last_activity`), not evicted. -/
theorem session_expiry_purge (tmo now : Nat) (st : Store) (sid : String) (s : Session) :
    (storeGet st sid = some s → now - s.last_activity > tmo →
      get_session tmo now st sid = (none, storeErase st sid) ∧
      storeGet (get_session tmo now st sid).2 sid = none ∧
      get_session_count (get_session tmo now st sid).2 < get_session_count st) ∧
    (storeGet st sid = some s → now - s.last_activity ≤ tmo →
      get_session tmo now st sid =
        (some (setLastActivity s now), storeSet st sid (setLastActivity s now)) ∧
      storeGet (get_session tmo now st sid).2 sid = some (setLastActivity s now)) ∧
    (∀ p ∈ cleanup_expired_sessions tmo now st, now - p.2.last_activity ≤ tmo) ∧
    (∀ p ∈ st, now - p.2.last_activity ≤ tmo →
      p ∈ cleanup_expired_sessions tmo now st) := by
  refine ⟨?_, ?_, ?_, ?_⟩
  · intro h hexp
    have hg : get_session tmo now st sid = (none, storeErase st sid) := by
      simp [get_session, h, hexp]
    refine ⟨hg, ?_, ?_⟩
    · rw [hg]
      exact storeGet_erase_self st sid
    · rw [hg]
      exact storeErase_length_lt st sid s h
  · intro h hle
    have hnexp : ¬ now - s.last_activity > tmo := by omega
    have hg : get_session tmo now st sid =
        (some (setLastActivity s now), storeSet st sid (setLastActivity s now)) := by
      simp [get_session, h, hnexp]
    refine ⟨hg, ?_⟩
    rw [hg]
    exact storeGet_set_self st sid _ s h
  · intro p hp
    simp only [cleanup_expired_sessions, List.mem_filter, decide_eq_true_eq] at hp
    exact hp.2
  · intro p hp hle
    simp only [cleanup_expired_sessions, List.mem_filter, decide_eq_true_eq]
    exact ⟨hp, hle⟩

/-- Witness for C4 at a concrete store: at time 100 with timeout 5, the
session idle since 0 is purged and reported absent. -/
theorem session_expiry_purge_witness :
    storeGet mixedStore "e" = some expiredSession ∧
    (100 : Nat) - expiredSession.last_activity > 5 ∧
    get_session 5 100 mixedStore "e" = (none, [("l", liveSession)]) ∧
    storeGet (get_session 5 100 mixedStore "e").2 "e" = none := by
  have h := (session_expiry_purge 5 100 mixedStore "e" expiredSession).1
    (by decide) (by decide)
  refine ⟨by decide, by decide, ?_, h.2.1⟩
  rw [h.1]
  decide

/-- C5 as stated is false: `update_session` checks only that the session id
is still present, not that the session is unexpired, so it does modify — and
by refreshing `last_activity`, revive — a session whose `now - last_activity`
already exceeds the timeout (here timeout 5, idle 100). -/
theorem update_expired_session_counterexample :
    (100 : Nat) - demoSession.last_activity > 5 ∧
    update_session 100 demoStore "s" demoPatch =
      [("s", ⟨"s", none, 0, 100, 0, none, ["Billing Support"]⟩)] ∧
    update_session 100 demoStore "s" demoPatch ≠ demoStore := by
  exact ⟨by decide, by decide, by decide⟩

/-- C5 amended: `update_session` merges the given fields and refreshes
`last_activity` whenever the session id is still present in the store,
expired or not; it is a silent no-op only when the session has vanished.
`increment_message_count` likewise is a silent no-op exactly when the id is
absent. -/
theorem update_session_ignores_expiry (now : Nat) (st : Store) (sid : String)
    (p : SessionPatch) :
    (storeGet st sid = none → update_session now st sid p = st ∧
      increment_message_count st sid = st) ∧
    (∀ s, storeGet st sid = some s →
      storeGet (update_session now st sid p) sid =
        some (setLastActivity (applyPatch s p) now) ∧
      storeGet (increment_message_count st sid) sid =
        some (incMessageCount s)) := by
  constructor
  · intro h
    constructor
    · simp [update_session, h]
    · simp [increment_message_count, h]
  · intro s h
    constructor
    · simp only [update_session, h]
      exact storeGet_set_self st sid _ s h
    · simp only [increment_message_count, h]
      exact storeGet_set_self st sid _ s h

/-- Witness for C5 (amended) at a concrete store. -/
theorem update_session_ignores_expiry_witness :
    storeGet demoStore "s" = some demoSession ∧
    storeGet (update_session 100 demoStore "s" demoPatch) "s" =
      some (setLastActivity (applyPatch demoSession demoPatch) 100) ∧
    storeGet (increment_message_count demoStore "s") "s" =
      some (incMessageCount demoSession) := by
  have h := (update_session_ignores_expiry 100 demoStore "s" demoPatch).2
    demoSession rfl
  exact ⟨rfl, h.1, h.2⟩

/-- C10: when `get_or_create_session` is called with a session id that
resolves to a live, non-expired session, it returns exactly that stored
session (only `last_activity` refreshed) and the `customer_id` argument is
ignored; every other field of the stored session is unchanged. -/
theorem get_or_create_preserves_existing (tmo now : Nat) (st : Store)
    (sid : String) (cid : Option String) (fresh : String) (s : Session)
    (hsid : sid ≠ "") (h : storeGet st sid = some s)
    (hlive : now - s.last_activity ≤ tmo) :
    get_or_create_session tmo now st (some sid) cid fresh =
      (some (setLastActivity s now), storeSet st sid (setLastActivity s now)) ∧
    (setLastActivity s now).session_id = s.session_id ∧
    (setLastActivity s now).customer_id = s.customer_id ∧
    (setLastActivity s now).created_at = s.created_at ∧
    (setLastActivity s now).message_count = s.message_count ∧
    (setLastActivity s now).cached_billing_policies = s.cached_billing_policies ∧
    (setLastActivity s now).routing_history = s.routing_history := by
  have hnexp : ¬ now - s.last_activity > tmo := by omega
  have hg : get_session tmo now st sid =
      (some (setLastActivity s now), storeSet st sid (setLastActivity s now)) := by
    simp [get_session, h, hnexp]
  refine ⟨?_, rfl, rfl, rfl, rfl, rfl, rfl⟩
  simp only [get_or_create_session, if_neg hsid, hg]

/-- Witness for C10: the stored customer id `"c1"` survives a lookup that
passes a different customer id argument. -/
theorem get_or_create_preserves_existing_witness :
    storeGet mixedStore "l" = some liveSession ∧
    (100 : Nat) - liveSession.last_activity ≤ 5 ∧
    get_or_create_session 5 100 mixedStore (some "l") (some "OTHER") "fresh-id" =
      (some (setLastActivity liveSession 100),
        storeSet mixedStore "l" (setLastActivity liveSession 100)) ∧
    (setLastActivity liveSession 100).customer_id = some "c1" := by
  have h := get_or_create_preserves_existing 5 100 mixedStore "l" (some "OTHER")
    "fresh-id" liveSession (by decide) (by decide) (by decide)
  exact ⟨by decide, by decide, h.1, by decide⟩

/-! ## Monotonicity of `last_activity` along access sequences -/

lemma mem_storeSet (st : Store) (sid : String) (v : Session) (p : String × Session)
    (hp : p ∈ storeSet st sid v) : p = (sid, v) ∨ p ∈ st := by
  induction st with
  | nil => simp [storeSet] at hp
  | cons q rest ih =>
    simp only [storeSet] at hp
    rcases List.mem_cons.mp hp with h1 | h1
    · by_cases hq : q.1 = sid
      · rw [if_pos hq] at h1
        exact Or.inl h1
      · rw [if_neg hq] at h1
        exact Or.inr (h1 ▸ List.mem_cons_self q rest)
    · rcases ih h1 with h2 | h2
      · exact Or.inl h2
      · exact Or.inr (List.mem_cons_of_mem q h2)

lemma mem_storeErase (st : Store) (sid : String) (p : String × Session)
    (hp : p ∈ storeErase st sid) : p ∈ st := by
  induction st with
  | nil => simp [storeErase] at hp
  | cons q rest ih =>
    simp only [storeErase] at hp
    by_cases hq : q.1 = sid
    · rw [if_pos hq] at hp
      exact List.mem_cons_of_mem q (ih hp)
    · rw [if_neg hq] at hp
      rcases List.mem_cons.mp hp with h1 | h1
      · exact h1 ▸ List.mem_cons_self q rest
      · exact List.mem_cons_of_mem q (ih h1)

lemma laBound_spec (c : Nat) (st : Store) :
    laBound c st = true ↔ ∀ p ∈ st, p.2.last_activity ≤ c := by
  simp [laBound, List.all_eq_true]

lemma laBound_mono (c t : Nat) (st : Store) (h : laBound c st = true)
    (hct : c ≤ t) : laBound t st = true := by
  rw [laBound_spec] at h ⊢
  intro p hp
  exact Nat.le_trans (h p hp) hct

lemma laOf_le_of_laBound (c : Nat) (st : Store) (sid : String) (la : Nat)
    (hb : laBound c st = true) (h : laOf st sid = some la) : la ≤ c := by
  unfold laOf at h
  cases hg : storeGet st sid with
  | none => rw [hg] at h; cases h
  | some s =>
    rw [hg] at h
    have hla : s.last_activity = la := Option.some.inj h
    exact hla ▸ (laBound_spec c st).mp hb (sid, s) (storeGet_mem st sid s hg)

lemma get_session_of_none (tmo now : Nat) (st : Store) (sid : String)
    (h : storeGet st sid = none) : get_session tmo now st sid = (none, st) := by
  simp [get_session, h]

lemma get_session_of_some (tmo now : Nat) (st : Store) (sid : String) (s : Session)
    (h : storeGet st sid = some s) :
    get_session tmo now st sid =
      if now - s.last_activity > tmo then (none, storeErase st sid)
      else (some (setLastActivity s now), storeSet st sid (setLastActivity s now)) := by
  simp only [get_session, h]

lemma update_session_of_none (now : Nat) (st : Store) (sid : String)
    (p : SessionPatch) (h : storeGet st sid = none) :
    update_session now st sid p = st := by
  simp [update_session, h]

lemma update_session_of_some (now : Nat) (st : Store) (sid : String)
    (p : SessionPatch) (s : Session) (h : storeGet st sid = some s) :
    update_session now st sid p =
      storeSet st sid (setLastActivity (applyPatch s p) now) := by
  simp [update_session, h]

lemma increment_of_none (st : Store) (sid : String)
    (h : storeGet st sid = none) : increment_message_count st sid = st := by
  simp [increment_message_count, h]

lemma increment_of_some (st : Store) (sid : String) (s : Session)
    (h : storeGet st sid = some s) :
    increment_message_count st sid = storeSet st sid (incMessageCount s) := by
  simp [increment_message_count, h]

lemma smStep_laBound (tmo c t : Nat) (st : Store) (op : SMOp)
    (hc : laBound c st = true) (hct : c ≤ t) :
    laBound t (smStep tmo st op t) = true := by
  have hst : laBound t st = true := laBound_mono c t st hc hct
  cases op with
  | get sid =>
    simp only [smStep]
    cases hg : storeGet st sid with
    | none => rw [get_session_of_none tmo t st sid hg]; exact hst
    | some s =>
      rw [get_session_of_some tmo t st sid s hg]
      by_cases hexp : t - s.last_activity > tmo
      · rw [if_pos hexp]
        rw [laBound_spec]
        intro p hp
        exact (laBound_spec t st).mp hst p (mem_storeErase st sid p hp)
      · rw [if_neg hexp]
        rw [laBound_spec]
        intro p hp
        rcases mem_storeSet st sid _ p hp with h1 | h1
        · rw [h1]
          exact Nat.le_refl t
        · exact (laBound_spec t st).mp hst p h1
  | update sid p2 =>
    simp only [smStep]
    cases hg : storeGet st sid with
    | none => rw [update_session_of_none t st sid p2 hg]; exact hst
    | some s =>
      rw [update_session_of_some t st sid p2 s hg]
      rw [laBound_spec]
      intro p hp
      rcases mem_storeSet st sid _ p hp with h1 | h1
      · rw [h1]
        exact Nat.le_refl t
      · exact (laBound_spec t st).mp hst p h1
  | increment sid =>
    simp only [smStep]
    cases hg : storeGet st sid with
    | none => rw [increment_of_none st sid hg]; exact hst
    | some s =>
      rw [increment_of_some st sid s hg]
      rw [laBound_spec]
      intro p hp
      rcases mem_storeSet st sid _ p hp with h1 | h1
      · rw [h1]
        exact (laBound_spec t st).mp hst (sid, s) (storeGet_mem st sid s hg)
      · exact (laBound_spec t st).mp hst p h1

lemma smStep_laOf (tmo t : Nat) (st : Store) (op : SMOp) (sid : String) :
    laOf (smStep tmo st op t) sid = laOf st sid ∨
    (laOf st sid ≠ none ∧
      (laOf (smStep tmo st op t) sid = none ∨
        laOf (smStep tmo st op t) sid = some t)) := by
  cases op with
  | get sid2 =>
    simp only [smStep]
    cases hg : storeGet st sid2 with
    | none => rw [get_session_of_none tmo t st sid2 hg]; exact Or.inl rfl
    | some s =>
      rw [get_session_of_some tmo t st sid2 s hg]
      by_cases hexp : t - s.last_activity > tmo
      · rw [if_pos hexp]
        by_cases hss : sid = sid2
        · subst hss
          refine Or.inr ⟨by simp [laOf, hg], Or.inl ?_⟩
          simp [laOf, storeGet_erase_self]
        · exact Or.inl (by simp [laOf, storeGet_erase_ne st sid2 sid hss])
      · rw [if_neg hexp]
        by_cases hss : sid = sid2
        · subst hss
          refine Or.inr ⟨by simp [laOf, hg], Or.inr ?_⟩
          simp [laOf, storeGet_set_self st sid _ s hg, setLastActivity]
        · exact Or.inl (by simp [laOf, storeGet_set_ne st sid2 sid _ hss])
  | update sid2 p2 =>
    simp only [smStep]
    cases hg : storeGet st sid2 with
    | none => rw [update_session_of_none t st sid2 p2 hg]; exact Or.inl rfl
    | some s =>
      rw [update_session_of_some t st sid2 p2 s hg]
      by_cases hss : sid = sid2
      · subst hss
        refine Or.inr ⟨by simp [laOf, hg], Or.inr ?_⟩
        simp [laOf, storeGet_set_self st sid _ s hg, setLastActivity]
      · exact Or.inl (by simp [laOf, storeGet_set_ne st sid2 sid _ hss])
  | increment sid2 =>
    simp only [smStep]
    cases hg : storeGet st sid2 with
    | none => rw [increment_of_none st sid2 hg]; exact Or.inl rfl
    | some s =>
      rw [increment_of_some st sid2 s hg]
      by_cases hss : sid = sid2
      · subst hss
        refine Or.inl ?_
        simp [laOf, storeGet_set_self st sid _ s hg, hg, incMessageCount]
      · exact Or.inl (by simp [laOf, storeGet_set_ne st sid2 sid _ hss])

lemma smRun_none (tmo : Nat) (ops : List (SMOp × Nat)) :
    ∀ (st : Store) (sid : String), laOf st sid = none →
      laOf (smRun tmo st ops) sid = none := by
  induction ops with
  | nil => intro st sid h; exact h
  | cons ot rest ih =>
    intro st sid h
    obtain ⟨op, t⟩ := ot
    rcases smStep_laOf tmo t st op sid with heq | ⟨hne, -⟩
    · exact ih (smStep tmo st op t) sid (heq.trans h)
    · exact absurd h hne

lemma smRun_la_mono (tmo : Nat) (ops : List (SMOp × Nat)) :
    ∀ (c : Nat) (st : Store) (sid : String) (la la2 : Nat),
      laBound c st = true → timesMono c ops = true →
      laOf st sid = some la → laOf (smRun tmo st ops) sid = some la2 →
      la ≤ la2 := by
  induction ops with
  | nil =>
    intro c st sid la la2 _ _ h1 h2
    have : la = la2 := Option.some.inj ((h1.symm.trans h2))
    exact Nat.le_of_eq this
  | cons ot rest ih =>
    intro c st sid la la2 hb ht h1 h2
    obtain ⟨op, t⟩ := ot
    simp only [smRun] at h2
    simp only [timesMono, Bool.and_eq_true, decide_eq_true_eq] at ht
    obtain ⟨hct, htrest⟩ := ht
    have hb2 : laBound t (smStep tmo st op t) = true :=
      smStep_laBound tmo c t st op hb hct
    rcases smStep_laOf tmo t st op sid with heq | ⟨-, hnone | hsome⟩
    · exact ih t (smStep tmo st op t) sid la la2 hb2 htrest (heq.trans h1) h2
    · have habs : laOf (smRun tmo (smStep tmo st op t) rest) sid = none :=
        smRun_none tmo rest (smStep tmo st op t) sid hnone
      rw [habs] at h2
      cases h2
    · have hlac : la ≤ c := laOf_le_of_laBound c st sid la hb h1
      have hrest : t ≤ la2 :=
        ih t (smStep tmo st op t) sid t la2 hb2 htrest hsome h2
      omega

/-- C3 as stated is false: `increment_message_count` does not refresh
`last_activity` to the current time — on a concrete store whose session was
last active at 0, an increment at time 10 leaves `last_activity` at 0. -/
theorem increment_refresh_counterexample :
    ¬ ∀ (now : Nat) (st : Store) (sid : String) (s : Session),
        storeGet st sid = some s →
        laOf (smStep 1000 st (SMOp.increment sid) now) sid = some now :=
  fun h => absurd (h 10 demoStore "s" demoSession (by decide)) (by decide)

/-- C3 amended: under a non-decreasing wall clock, `last_activity` is
monotonically non-decreasing across any sequence of `get_session`,
`update_session`, `increment_message_count` calls; `get_session` and
`update_session` refresh it to the current time, but
`increment_message_count` leaves it unchanged. -/
theorem last_activity_monotone :
    (∀ (tmo now : Nat) (st : Store) (sid : String) (s2 : Session),
      (get_session tmo now st sid).1 = some s2 → s2.last_activity = now) ∧
    (∀ (now : Nat) (st : Store) (sid : String) (p : SessionPatch) (s : Session),
      storeGet st sid = some s →
      laOf (update_session now st sid p) sid = some now) ∧
    (∀ (st : Store) (sid : String) (s : Session),
      storeGet st sid = some s →
      laOf (increment_message_count st sid) sid = some s.last_activity) ∧
    (∀ (tmo c : Nat) (st : Store) (ops : List (SMOp × Nat)) (sid : String)
      (la la2 : Nat),
      laBound c st = true → timesMono c ops = true →
      laOf st sid = some la → laOf (smRun tmo st ops) sid = some la2 →
      la ≤ la2) := by
  refine ⟨?_, ?_, ?_, fun tmo c st ops sid la la2 hb ht h1 h2 =>
    smRun_la_mono tmo ops c st sid la la2 hb ht h1 h2⟩
  · intro tmo now st sid s2 h
    cases hg : storeGet st sid with
    | none => simp [get_session, hg] at h
    | some s =>
      simp only [get_session, hg] at h
      by_cases hexp : now - s.last_activity > tmo
      · rw [if_pos hexp] at h
        cases h
      · rw [if_neg hexp] at h
        have : setLastActivity s now = s2 := Option.some.inj h
        rw [← this]
        rfl
  · intro now st sid p s h
    simp only [update_session, h, laOf]
    rw [storeGet_set_self st sid _ s h]
    rfl
  · intro st sid s h
    simp only [increment_message_count, h, laOf]
    rw [storeGet_set_self st sid _ s h]
    rfl

/-- Witness for C3 (amended): a concrete trace — read at 3, increment at 5,
update at 7 — ends with `last_activity = 7 ≥ 0`. -/
theorem last_activity_monotone_witness :
    laBound 0 demoStore = true ∧ timesMono 0 demoTrace = true ∧
    laOf demoStore "s" = some 0 ∧
    laOf (smRun 1000 demoStore demoTrace) "s" = some 7 ∧ (0 : Nat) ≤ 7 := by
  refine ⟨by decide, by decide, by decide, by decide, ?_⟩
  exact last_activity_monotone.2.2.2 1000 0 demoStore demoTrace "s" 0 7
    (by decide) (by decide) (by decide) (by decide)

end CustomerAgents
